import Mathlib

/-!
Verification development for the `slurm_inspector` repository.

The Rust sources are shallowly embedded here:

* `src/sinfo_util.rs`  — partition/node record parsing (`get_pn_info_util`,
  `str_to_availability`, `str_to_error`, `str_to_node_state`, the test fixture
  `get_partition_node_info_test`);
* `src/squeue_util.rs` — job record parsing (`get_job_info_util`,
  `str_to_list_of_nodes`, `str_to_state_reason`, `str_to_job_state`,
  `get_job_info_test`);
* `src/slurm_status.rs` — the shared snapshot (`SlurmStatus`), the poller cycle
  of `check_slurm_status`, and the renderer `status_to_html`;
* `src/request_handler.rs` — `handle_request`.

Modelling conventions: Rust `String`/`&str` become Lean `String` (viewed as a
list of `Char`); Rust `u32` parsing results become `Option Nat` with the
`< 2^32` overflow bound made explicit; Rust `f64` parse results are modelled
exactly, by the inductive `F64` whose finite values are the exact rational
denoted by the token (IEEE rounding is irrelevant to every property proved
here); fallible operations return `Option`/`Except`.  Rust's
`str::to_lowercase`/`to_uppercase` are modelled characterwise with the ASCII
`Char.toLower`/`Char.toUpper` (every token the program compares against is
ASCII).
-/

/-! ## Characterwise case mapping (models Rust `str::to_lowercase` / `to_uppercase`) -/

def strLower (s : String) : String := ⟨s.data.map Char.toLower⟩

def strUpper (s : String) : String := ⟨s.data.map Char.toUpper⟩

theorem char_toNat_ofNat_valid {n : Nat} (h : n.isValidChar) :
    (Char.ofNat n).toNat = n := by
  unfold Char.ofNat
  rw [dif_pos h]
  rfl

theorem char_toLower_toUpper (c : Char) : c.toUpper.toLower = c.toLower := by
  have hup : Char.toUpper c =
      if 97 ≤ c.toNat ∧ c.toNat ≤ 122 then Char.ofNat (c.toNat - 32) else c := rfl
  have hlo : ∀ d : Char, Char.toLower d =
      if 65 ≤ d.toNat ∧ d.toNat ≤ 90 then Char.ofNat (d.toNat + 32) else d :=
    fun _ => rfl
  by_cases h : 97 ≤ c.toNat ∧ c.toNat ≤ 122
  · have hval : (c.toNat - 32).isValidChar := Or.inl (by omega)
    have htn : (Char.ofNat (c.toNat - 32)).toNat = c.toNat - 32 :=
      char_toNat_ofNat_valid hval
    rw [hup, if_pos h, hlo, htn, if_pos (by omega)]
    have : c.toNat - 32 + 32 = c.toNat := by omega
    rw [this, Char.ofNat_toNat, hlo, if_neg (by omega)]
  · rw [hup, if_neg h]

theorem char_toLower_toLower (c : Char) : c.toLower.toLower = c.toLower := by
  have hlo : ∀ d : Char, Char.toLower d =
      if 65 ≤ d.toNat ∧ d.toNat ≤ 90 then Char.ofNat (d.toNat + 32) else d :=
    fun _ => rfl
  by_cases h : 65 ≤ c.toNat ∧ c.toNat ≤ 90
  · have hval : (c.toNat + 32).isValidChar := Or.inl (by omega)
    have htn : (Char.ofNat (c.toNat + 32)).toNat = c.toNat + 32 :=
      char_toNat_ofNat_valid hval
    have h1 : c.toLower = Char.ofNat (c.toNat + 32) := by rw [hlo c, if_pos h]
    rw [h1, hlo, htn, if_neg (by omega)]
  · have h1 : c.toLower = c := by rw [hlo c, if_neg h]
    rw [h1]
    exact h1

theorem strLower_strUpper (s : String) : strLower (strUpper s) = strLower s := by
  unfold strLower strUpper
  simp only [List.map_map]
  exact congrArg String.mk (List.map_congr_left fun c _ => char_toLower_toUpper c)

theorem strLower_strLower (s : String) : strLower (strLower s) = strLower s := by
  unfold strLower
  simp only [List.map_map]
  exact congrArg String.mk (List.map_congr_left fun c _ => char_toLower_toLower c)

/-! ## Enumerations of `sinfo_util.rs` and `squeue_util.rs` -/

/-- `PartitionAvailability` from `sinfo_util.rs`. -/
inductive PartitionAvailability where
  | Up
  | Down
deriving DecidableEq, Repr

/-- `ErrorCause` from `sinfo_util.rs`. -/
inductive ErrorCause where
  | Down
  | Drained
  | Draining
  | None
  | Unknown
deriving DecidableEq, Repr

/-- `NodeState` from `sinfo_util.rs`. -/
inductive NodeState where
  | Allocated
  | Completing
  | Down
  | Drained
  | Draining
  | Fail
  | Failing
  | Idle
  | Maint
  | Unknown
deriving DecidableEq, Repr

/-- `StateReason` from `squeue_util.rs`. -/
inductive StateReason where
  | Dependency
  | None
  | PartitionDown
  | PartitionNodeLimit
  | PartitionTimeLimit
  | Priority
  | Resources
  | NodeDown
  | BadConstraints
  | SystemFailure
  | JobLaunchFailure
  | NonZeroExitCode
  | TimeLimit
  | InactiveLimit
  | Unknown
deriving DecidableEq, Repr

/-- `JobState` from `squeue_util.rs`. -/
inductive JobState where
  | Cancelled
  | Completed
  | Configuring
  | Completing
  | Failed
  | NodeFail
  | Pending
  | Preempted
  | Running
  | Suspended
  | Timeout
  | Unknown
deriving DecidableEq, Repr

/-! ## Field classifiers (the Rust `match &*s.to_lowercase() { ... }` functions) -/

/-- `str_to_availability` from `sinfo_util.rs`. -/
def str_to_availability (avail : String) : PartitionAvailability :=
  if strLower avail = "up" then .Up else .Down

/-- `str_to_error` from `sinfo_util.rs`. -/
def str_to_error (error : String) : ErrorCause :=
  if strLower error = "down" then .Down
  else if strLower error = "drained" then .Drained
  else if strLower error = "draining" then .Draining
  else if strLower error = "none" then .None
  else .Unknown

/-- `str_to_node_state` from `sinfo_util.rs`; the `"alloc" | "allocated"`
pattern becomes a disjunction. -/
def str_to_node_state (n_state : String) : NodeState :=
  if strLower n_state = "alloc" ∨ strLower n_state = "allocated" then .Allocated
  else if strLower n_state = "completing" then .Completing
  else if strLower n_state = "down" then .Down
  else if strLower n_state = "drained" then .Drained
  else if strLower n_state = "draining" then .Draining
  else if strLower n_state = "fail" then .Fail
  else if strLower n_state = "failing" then .Failing
  else if strLower n_state = "idle" then .Idle
  else if strLower n_state = "maint" then .Maint
  else .Unknown

/-- `str_to_state_reason` from `squeue_util.rs`. -/
def str_to_state_reason (reason : String) : StateReason :=
  if strLower reason = "dependency" then .Dependency
  else if strLower reason = "none" then .None
  else if strLower reason = "partitiondown" then .PartitionDown
  else if strLower reason = "partitionnodelimit" then .PartitionNodeLimit
  else if strLower reason = "partitiontimelimit" then .PartitionTimeLimit
  else if strLower reason = "priority" then .Priority
  else if strLower reason = "resources" then .Resources
  else if strLower reason = "nodedown" then .NodeDown
  else if strLower reason = "badconstraints" then .BadConstraints
  else if strLower reason = "systemfailure" then .SystemFailure
  else if strLower reason = "joblaunchfailure" then .JobLaunchFailure
  else if strLower reason = "nonzeroexitcode" then .NonZeroExitCode
  else if strLower reason = "timelimit" then .TimeLimit
  else if strLower reason = "inactivelimit" then .InactiveLimit
  else .Unknown

/-- `str_to_job_state` from `squeue_util.rs`. -/
def str_to_job_state (state : String) : JobState :=
  if strLower state = "cancelled" then .Cancelled
  else if strLower state = "completed" then .Completed
  else if strLower state = "configuring" then .Configuring
  else if strLower state = "completing" then .Completing
  else if strLower state = "failed" then .Failed
  else if strLower state = "node_fail" then .NodeFail
  else if strLower state = "pending" then .Pending
  else if strLower state = "preempted" then .Preempted
  else if strLower state = "running" then .Running
  else if strLower state = "suspended" then .Suspended
  else if strLower state = "timeout" then .Timeout
  else .Unknown

theorem str_to_error_congr {s t : String} (h : strLower s = strLower t) :
    str_to_error s = str_to_error t := by
  unfold str_to_error
  rw [h]

theorem str_to_node_state_congr {s t : String} (h : strLower s = strLower t) :
    str_to_node_state s = str_to_node_state t := by
  unfold str_to_node_state
  rw [h]

theorem str_to_state_reason_congr {s t : String} (h : strLower s = strLower t) :
    str_to_state_reason s = str_to_state_reason t := by
  unfold str_to_state_reason
  rw [h]

theorem str_to_job_state_congr {s t : String} (h : strLower s = strLower t) :
    str_to_job_state s = str_to_job_state t := by
  unfold str_to_job_state
  rw [h]

example : str_to_node_state "IDLE" = .Idle := by decide
example : str_to_job_state "nodefail" = .Unknown := by decide
example : str_to_availability "Up" = .Up := by decide

/-! ## Tokenization: Rust `str::lines` and `str::split_whitespace` -/

/-- One completed line: a line terminated by `\n` drops a final `\r`
(Rust `lines` treats `\r\n` as a line ending).  The accumulator holds the
line's characters in reverse order. -/
def finishLine (acc : List Char) : List Char :=
  match acc with
  | '\r' :: rest => rest.reverse
  | _ => acc.reverse

def linesAux : List Char → List Char → List (List Char)
  | [], acc => if acc = [] then [] else [acc.reverse]
  | c :: cs, acc =>
    if c = '\n' then finishLine acc :: linesAux cs []
    else linesAux cs (c :: acc)

/-- Rust `str::lines`: split at `\n` (stripping a preceding `\r`); a final
line terminator produces no extra empty line. -/
def rustLines (s : String) : List String :=
  (linesAux s.data []).map List.asString

def wsTokensAux : List Char → List Char → List (List Char)
  | [], acc => if acc = [] then [] else [acc.reverse]
  | c :: cs, acc =>
    if c.isWhitespace then
      if acc = [] then wsTokensAux cs []
      else acc.reverse :: wsTokensAux cs []
    else wsTokensAux cs (c :: acc)

/-- Rust `str::split_whitespace` (collected to a `Vec`): maximal runs of
non-whitespace characters, in order. -/
def splitWhitespace (s : String) : List String :=
  (wsTokensAux s.data []).map List.asString

example : splitWhitespace "  a bc   d " = ["a", "bc", "d"] := by decide
example : rustLines "a\nb\r\nc\n" = ["a", "b", "c"] := by decide
example : rustLines "" = [] := by decide
example : rustLines "a\n\nb" = ["a", "", "b"] := by decide

/-! ## Numeric token parsing

`items[i].parse::<u32>().ok()` and `items[i].parse::<f64>().ok()` from the
record parsers.  A `u32` value is a `Nat` below `2 ^ 32`; an `f64` parse
result is modelled exactly by `F64` (see the header comment). -/

/-- The numeric value of an ASCII digit. -/
def decDigit (c : Char) : Nat := c.toNat - 48

/-- The number denoted by a list of decimal digits (most significant first). -/
def decValue (ds : List Char) : Nat := ds.foldl (fun a c => a * 10 + decDigit c) 0

/-- Digit-accumulation loop of Rust `from_str_radix` for `u32`: one checked
multiply-add per digit, failing on a non-digit or on overflow past `2 ^ 32`. -/
def u32Go (acc : Nat) : List Char → Option Nat
  | [] => some acc
  | c :: cs =>
    if c.isDigit then
      if acc * 10 + decDigit c < 4294967296 then u32Go (acc * 10 + decDigit c) cs
      else none
    else none

/-- `str::parse::<u32>().ok()`: an optional leading `+`, then one or more
decimal digits whose value fits in a `u32`. -/
def parseU32 (s : String) : Option Nat :=
  match s.data with
  | [] => none
  | c :: r =>
    if c = '+' then
      if r = [] then none else u32Go 0 r
    else u32Go 0 (c :: r)

example : parseU32 "42" = some 42 := by decide
example : parseU32 "+042" = some 42 := by decide
example : parseU32 "N/A" = none := by decide
example : parseU32 "*" = none := by decide
example : parseU32 "-" = none := by decide
example : parseU32 "4294967295" = some 4294967295 := by decide
example : parseU32 "4294967296" = none := by decide
example : parseU32 "" = none := by decide
example : parseU32 "+" = none := by decide

/-- An `f64` parse result: the exact rational value denoted by a finite
token, or one of the special values. -/
inductive F64 where
  | finite (q : ℚ)
  | posInf
  | negInf
  | nan
deriving DecidableEq, Repr

/-- Leading-sign stripping shared by the numeric parsers of Rust's
`dec2flt`: `-` and `+` are consumed, everything else is left in place. -/
def splitSign (cs : List Char) : Bool × List Char :=
  match cs with
  | [] => (false, [])
  | c :: r =>
    if c = '-' then (true, r)
    else if c = '+' then (false, r)
    else (false, cs)

/-- Mantissa of a decimal `f64` token: digits, optionally a dot with further
digits, with at least one digit overall.  Returns the integer-part digits,
the fraction digits and the unconsumed tail. -/
def parseMantissa (cs : List Char) : Option (List Char × List Char × List Char) :=
  match cs.dropWhile Char.isDigit with
  | [] =>
    if cs.takeWhile Char.isDigit = [] then none
    else some (cs.takeWhile Char.isDigit, [], [])
  | c :: rest2 =>
    if c = '.' then
      if cs.takeWhile Char.isDigit = [] ∧ rest2.takeWhile Char.isDigit = [] then none
      else some
        (cs.takeWhile Char.isDigit, rest2.takeWhile Char.isDigit,
         rest2.dropWhile Char.isDigit)
    else
      if cs.takeWhile Char.isDigit = [] then none
      else some (cs.takeWhile Char.isDigit, [], c :: rest2)

/-- Exponent suffix of an `f64` token: either empty, or `e`/`E`, an optional
sign and one or more digits consuming the whole remainder. -/
def parseExp (cs : List Char) : Option ℤ :=
  match cs with
  | [] => some 0
  | c :: rest =>
    if c = 'e' ∨ c = 'E' then
      if (splitSign rest).2 ≠ [] ∧ (splitSign rest).2.all Char.isDigit then
        some (if (splitSign rest).1 then -(decValue (splitSign rest).2 : ℤ)
              else (decValue (splitSign rest).2 : ℤ))
      else none
    else none

/-- The exact rational value of a signed decimal token with integer digits
`ip`, fraction digits `fp` and decimal exponent `e`, built with integer
arithmetic and a single normalization (`mkRat`) so that it evaluates inside
the kernel. -/
def decTokenVal (neg : Bool) (ip fp : List Char) (e : ℤ) : ℚ :=
  let mantNum : ℤ :=
    (if neg then -1 else 1) * ((decValue ip : ℤ) * 10 ^ fp.length + (decValue fp : ℤ))
  if 0 ≤ e then mkRat (mantNum * 10 ^ e.toNat) (10 ^ fp.length)
  else mkRat mantNum (10 ^ fp.length * 10 ^ (-e).toNat)

/-- `str::parse::<f64>().ok()`: optional sign, then case-insensitive
`inf`/`infinity`/`nan` or a decimal mantissa with optional exponent.  Finite
values are kept exact (see the header comment). -/
def parseF64 (s : String) : Option F64 :=
  if s.data = [] then none
  else if (splitSign s.data).2.map Char.toLower = "inf".data ∨
      (splitSign s.data).2.map Char.toLower = "infinity".data then
    some (if (splitSign s.data).1 then .negInf else .posInf)
  else if (splitSign s.data).2.map Char.toLower = "nan".data then some .nan
  else
    match parseMantissa (splitSign s.data).2 with
    | none => none
    | some (ip, fp, rest) =>
      match parseExp rest with
      | none => none
      | some e => some (.finite (decTokenVal (splitSign s.data).1 ip fp e))

example : parseF64 "0.22" = some (.finite (mkRat 22 100)) := by decide
example : parseF64 "0.9" = some (.finite (mkRat 9 10)) := by decide
example : parseF64 "-" = none := by decide
example : parseF64 "N/A" = none := by decide
example : parseF64 "*" = none := by decide
example : parseF64 "" = none := by decide
example : parseF64 "5." = some (.finite 5) := by decide
example : parseF64 ".5" = some (.finite (mkRat 1 2)) := by decide
example : parseF64 "." = none := by decide
example : parseF64 "-2.5E2" = some (.finite (-250)) := by decide
example : parseF64 "1e-2" = some (.finite (mkRat 1 100)) := by decide
example : parseF64 "Inf" = some .posInf := by decide
example : parseF64 "-infinity" = some .negInf := by decide
example : parseF64 "NaN" = some .nan := by decide
example : parseF64 "1e" = none := by decide
example : parseF64 "0.99998474074527" = some (.finite (mkRat 99998474074527 100000000000000)) := by decide

/-! ## Records and record parsers -/

/-- `PartitionNodeInfo` from `sinfo_util.rs`. -/
structure PartitionNodeInfo where
  partition : String
  availability : PartitionAvailability
  hostname : String
  node : String
  error : ErrorCause
  cpu_load : Option F64
  node_state : NodeState
  node_sockets : Option Nat
  node_cores : Option Nat
  node_threads : Option Nat
deriving DecidableEq, Repr

/-- `JobInfo` from `squeue_util.rs`. -/
structure JobInfo where
  executing_host : String
  minimum_cpu : Option Nat
  num_cpu : Option Nat
  num_nodes : Option Nat
  job_array_id : Option Nat
  num_sockets : Option Nat
  job_id : Option Nat
  num_cores : Option Nat
  job_name : String
  num_threads : Option Nat
  job_array_index : Option Nat
  run_time : String
  list_of_nodes : List String
  priority : Option F64
  state_reason : StateReason
  start_time : String
  job_state : JobState
  user_name : String
  user_id : Option Nat
deriving DecidableEq, Repr

/-- `str_to_list_of_nodes` from `squeue_util.rs`: empty string gives the
empty list, otherwise split at commas. -/
def str_to_list_of_nodes (nodes : String) : List String :=
  if nodes.data.length = 0 then []
  else (splitOnComma nodes.data []).map List.asString
where
  /-- Rust `str::split(',')` collected to a `Vec` (on nonempty input). -/
  splitOnComma : List Char → List Char → List (List Char)
    | [], acc => [acc.reverse]
    | c :: cs, acc =>
      if c = ',' then acc.reverse :: splitOnComma cs []
      else splitOnComma cs (c :: acc)

example : str_to_list_of_nodes "" = [] := by decide
example : str_to_list_of_nodes "a" = ["a"] := by decide
example : str_to_list_of_nodes "a,b,c" = ["a", "b", "c"] := by decide
example : str_to_list_of_nodes "node1,node2" = ["node1", "node2"] := by decide

/-- The record built from the ten tokens of an accepted `sinfo` line
(the body of the `result.push(...)` in `get_pn_info_util`). -/
def pnFromItems (items : List String) : PartitionNodeInfo :=
  { partition := items.getD 0 ""
    availability := str_to_availability (items.getD 1 "")
    hostname := items.getD 2 ""
    node := items.getD 3 ""
    error := str_to_error (items.getD 4 "")
    cpu_load := parseF64 (items.getD 5 "")
    node_state := str_to_node_state (items.getD 6 "")
    node_sockets := parseU32 (items.getD 7 "")
    node_cores := parseU32 (items.getD 8 "")
    node_threads := parseU32 (items.getD 9 "") }

/-- `get_pn_info_util` from `sinfo_util.rs`: for each line, tokenize on
whitespace; skip the line unless it has exactly 10 tokens; otherwise push
one record. -/
def get_pn_info_util (sinfo_output : String) : List PartitionNodeInfo :=
  (rustLines sinfo_output).foldl
    (fun result line =>
      if (splitWhitespace line).length ≠ 10 then result
      else result ++ [pnFromItems (splitWhitespace line)])
    []

/-- The record built from the nineteen tokens of an accepted `squeue` line
(the body of the `result.push(...)` in `get_job_info_util`). -/
def jobFromItems (items : List String) : JobInfo :=
  { executing_host := items.getD 0 ""
    minimum_cpu := parseU32 (items.getD 1 "")
    num_cpu := parseU32 (items.getD 2 "")
    num_nodes := parseU32 (items.getD 3 "")
    job_array_id := parseU32 (items.getD 4 "")
    num_sockets := parseU32 (items.getD 5 "")
    job_id := parseU32 (items.getD 6 "")
    num_cores := parseU32 (items.getD 7 "")
    job_name := items.getD 8 ""
    num_threads := parseU32 (items.getD 9 "")
    job_array_index := parseU32 (items.getD 10 "")
    run_time := items.getD 11 ""
    list_of_nodes := str_to_list_of_nodes (items.getD 12 "")
    priority := parseF64 (items.getD 13 "")
    state_reason := str_to_state_reason (items.getD 14 "")
    start_time := items.getD 15 ""
    job_state := str_to_job_state (items.getD 16 "")
    user_name := items.getD 17 ""
    user_id := parseU32 (items.getD 18 "") }

/-- `get_job_info_util` from `squeue_util.rs`: for each line, tokenize on
whitespace; skip the line unless it has exactly 19 tokens; otherwise push
one record. -/
def get_job_info_util (squeue_output : String) : List JobInfo :=
  (rustLines squeue_output).foldl
    (fun result line =>
      if (splitWhitespace line).length ≠ 19 then result
      else result ++ [jobFromItems (splitWhitespace line)])
    []

example : get_pn_info_util "" = [] := by decide
example : (get_pn_info_util "1 2 3").length = 0 := by decide
example : get_job_info_util "" = [] := by decide
example : (get_job_info_util "1 2 3 4").length = 0 := by decide

/-! ## Test fixtures (`get_partition_node_info_test`, `get_job_info_test`) -/

/-- The string literal `test_data` inside `get_partition_node_info_test`
(`sinfo_util.rs`), including the source indentation. -/
def pnTestData : String := String.intercalate "\n"
  [ ""
  , "        esd up node01 node01 none 0.22 idle 2 2 2"
  , "        esd up node02 node02 none 0.0 idle 2 8 2"
  , "        esd down node03 node03 down - - - - -"
  , "        esd up node04 node04 none 0.71 idle 1 1 1"
  , "        esd up node05 node05 none 0.0 alloc 1 1 1"
  , "        esd up node06 node06 none 0.0 completing 1 1 1"
  , "        esd up node07 node07 none 0.0 drained 1 1 1"
  , "        esd up node08 node08 none 0.0 draining 1 1 1"
  , "        esd up node09 node09 none 0.0 fail 1 1 1"
  , "        esd up node10 node10 none 0.0 failing 1 1 1"
  , "        esd up node11 node11 none 0.0 maint 1 1 1"
  , "        esd up node12 node12 none 0.0 unknown 1 1 1"
  , "    " ]

/-- `get_partition_node_info_test` from `sinfo_util.rs`. -/
def get_partition_node_info_test : List PartitionNodeInfo :=
  get_pn_info_util pnTestData

/-- The string literal `test_data` inside `get_job_info_test`
(`squeue_util.rs`), including the source indentation. -/
def jobTestData : String := String.intercalate "\n"
  [ ""
  , "        node01 1 2 1 N/A * 1 * small_test01 * N/A 1:00 node01 0.9 None 2000-01-01T09:00:00 RUNNING user01 1000"
  , "        node01 1 2 2 N/A * 2 * small_test02 * N/A 1:15 node01,node02 0.9 None 2000-01-01T09:00:00 cancelled user02 1001"
  , "        node01 1 2 4 N/A * 3 * small_test03 * N/A 2:00 node01 0.1 None 2000-01-01T09:00:00 completed user03 1002"
  , "        node02 1 2 1 N/A * 4 * small_test04 * N/A 2:00 node01 0.2 None 2000-01-01T09:00:00 configuring user04 1003"
  , "        node03 1 2 1 N/A * 5 * small_test05 * N/A 2:46 node01 0.9 None 2000-01-01T09:00:00 Completing user05 1004"
  , "        node04 1 2 6 N/A * 6 * small_test06 * N/A 3:12 node03,node04,node05 0.9 None 2000-01-01T09:00:00 FAILED user05 1004"
  , "        node05 1 2 1 N/A * 7 * small_test07 * N/A 4:02 node01 0.9 None 2000-01-01T09:00:00 nodefail user01 1000"
  , "        node06 1 2 1 N/A * 8 * small_test08 * N/A 5:00 node01 0.9 None 2000-01-01T09:00:00 Pending user02 1001"
  , "        node07 1 2 2 N/A * 9 * small_test09 * N/A 1:00 node01 0.5 None 2000-01-01T09:00:00 preempted user02 1001"
  , "        node08 1 2 2 N/A * 10 * small_test10 * N/A 2:01 node01 0.6 None 2000-01-01T09:00:00 suspended user03 1002"
  , "        node08 1 2 10 N/A * 11 * small_test11 * N/A 2:06 node01 0.9 None 2000-01-01T09:00:00 timeout user04 1003"
  , "        node08 1 2 6 N/A * 12 * small_test12 * N/A 4:09 node01 0.2 None 2000-01-01T09:00:00 UNKNOWN user05 1004"
  , "    " ]

/-- `get_job_info_test` from `squeue_util.rs`. -/
def get_job_info_test : List JobInfo :=
  get_job_info_util jobTestData

example : get_partition_node_info_test.length = 12 := by decide
example : get_job_info_test.length = 12 := by decide
example : (get_job_info_test.map JobInfo.job_state).getD 6 .Unknown = .Unknown := by decide
example : (get_job_info_test.map JobInfo.job_state).getD 0 .Unknown = .Running := by decide

/-! ## Snapshot, renderer and request handler (`slurm_status.rs`, `request_handler.rs`) -/

/-- `Configuration` from `configuration.rs` (consumed read-only here). -/
structure Configuration where
  port : Nat
  interval : Nat
  test_mode : Bool
  log_level : String
deriving DecidableEq, Repr

/-- `SlurmStatus` from `slurm_status.rs`: the snapshot shared between the
poller thread and the request handlers. -/
structure SlurmStatus where
  node_info : List PartitionNodeInfo
  job_info : List JobInfo
  last_update : String
deriving DecidableEq, Repr

/-- The empty snapshot created in `main.rs` before the threads start. -/
def initialSlurmStatus : SlurmStatus :=
  { node_info := [], job_info := [], last_update := "" }

/-- Rust `{:?}` (derived `Debug`) output for `ErrorCause`. -/
def ErrorCause.debugStr : ErrorCause → String
  | .Down => "Down"
  | .Drained => "Drained"
  | .Draining => "Draining"
  | .None => "None"
  | .Unknown => "Unknown"

/-- Rust `{:?}` (derived `Debug`) output for `NodeState`. -/
def NodeState.debugStr : NodeState → String
  | .Allocated => "Allocated"
  | .Completing => "Completing"
  | .Down => "Down"
  | .Drained => "Drained"
  | .Draining => "Draining"
  | .Fail => "Fail"
  | .Failing => "Failing"
  | .Idle => "Idle"
  | .Maint => "Maint"
  | .Unknown => "Unknown"

/-- Rust `{:?}` (derived `Debug`) output for `StateReason`. -/
def StateReason.debugStr : StateReason → String
  | .Dependency => "Dependency"
  | .None => "None"
  | .PartitionDown => "PartitionDown"
  | .PartitionNodeLimit => "PartitionNodeLimit"
  | .PartitionTimeLimit => "PartitionTimeLimit"
  | .Priority => "Priority"
  | .Resources => "Resources"
  | .NodeDown => "NodeDown"
  | .BadConstraints => "BadConstraints"
  | .SystemFailure => "SystemFailure"
  | .JobLaunchFailure => "JobLaunchFailure"
  | .NonZeroExitCode => "NonZeroExitCode"
  | .TimeLimit => "TimeLimit"
  | .InactiveLimit => "InactiveLimit"
  | .Unknown => "Unknown"

/-- Rust `{:?}` (derived `Debug`) output for `JobState`. -/
def JobState.debugStr : JobState → String
  | .Cancelled => "Cancelled"
  | .Completed => "Completed"
  | .Configuring => "Configuring"
  | .Completing => "Completing"
  | .Failed => "Failed"
  | .NodeFail => "NodeFail"
  | .Pending => "Pending"
  | .Preempted => "Preempted"
  | .Running => "Running"
  | .Suspended => "Suspended"
  | .Timeout => "Timeout"
  | .Unknown => "Unknown"

/-- Display of an `f64` value inside a table cell.  Rust prints the value
with `format!("{}", val)`; since finite values are modelled by their exact
rational (see the header comment), the digit string is abstracted as the
`num/den` form — no property proved here depends on the digits. -/
def F64.display : F64 → String
  | .finite q => toString q.num ++ "/" ++ toString q.den
  | .posInf => "inf"
  | .negInf => "-inf"
  | .nan => "NaN"

/-- `node.cpu_load.map_or("<td>-</td>".to_string(), |val| format!("<td>{}</td>", val))`
and its clones in `status_to_html`, for `Option<u32>` fields. -/
def optNatCell (o : Option Nat) : String :=
  o.elim "<td>-</td>" (fun val => "<td>" ++ toString val ++ "</td>")

/-- Same as `optNatCell`, for the `Option<f64>` fields. -/
def optF64Cell (o : Option F64) : String :=
  o.elim "<td>-</td>" (fun val => "<td>" ++ F64.display val ++ "</td>")

/-- The availability cell of a node row: the down variant carries the
`partition_down` CSS marker (`slurm_status.rs`, lines 103-108). -/
def availabilityCell : PartitionAvailability → String
  | .Up => "<td>Up</td>"
  | _ => "<td id=\"partition_down\">Down</td>"

/-- One `<tr>` of the partition/node table: the strings pushed by one
iteration of the first `for` loop of `status_to_html`, concatenated in
source order. -/
def nodeRowHtml (node : PartitionNodeInfo) : String :=
  "<tr>\n"
  ++ ("<td>" ++ node.partition ++ "</td>")
  ++ availabilityCell node.availability
  ++ ("<td>" ++ node.hostname ++ "</td>")
  ++ ("<td>" ++ node.node ++ "</td>")
  ++ ("<td>" ++ node.error.debugStr ++ "</td>")
  ++ optF64Cell node.cpu_load
  ++ ("<td>" ++ node.node_state.debugStr ++ "</td>")
  ++ optNatCell node.node_sockets
  ++ optNatCell node.node_cores
  ++ optNatCell node.node_threads
  ++ "</tr>\n"

/-- One `<tr>` of the job table: the strings pushed by one iteration of the
second `for` loop of `status_to_html`, concatenated in source order. -/
def jobRowHtml (job : JobInfo) : String :=
  "<tr>\n"
  ++ ("<td>" ++ job.executing_host ++ "</td>")
  ++ optNatCell job.minimum_cpu
  ++ optNatCell job.num_cpu
  ++ optNatCell job.num_nodes
  ++ optNatCell job.job_array_id
  ++ optNatCell job.num_sockets
  ++ optNatCell job.job_id
  ++ optNatCell job.num_cores
  ++ ("<td>" ++ job.job_name ++ "</td>")
  ++ optNatCell job.num_threads
  ++ optNatCell job.job_array_index
  ++ ("<td>" ++ job.run_time ++ "</td>")
  ++ ("<td>" ++ job.list_of_nodes.foldl (fun acc node => acc ++ (node ++ ",")) "" ++ "</td>")
  ++ optF64Cell job.priority
  ++ ("<td>" ++ job.state_reason.debugStr ++ "</td>")
  ++ ("<td>" ++ job.start_time ++ "</td>")
  ++ ("<td>" ++ job.job_state.debugStr ++ "</td>")
  ++ ("<td>" ++ job.user_name ++ "</td>")
  ++ optNatCell job.user_id
  ++ "</tr>\n"

/-- The fixed strings pushed by `status_to_html` before `last_update`
(page head, CSS, body start, start of the update header), in source order.
Literal CSS braces are written `\x7b`/`\x7d`. -/
def htmlDocHead : String :=
  "<html>\n" ++ "<head>\n" ++ "<title>Slurm Inspector</title>\n" ++ "<style>\n"
  ++ "table, \x7b border: 1px solid black; \x7d\n"
  ++ "th, td \x7b border: 1px solid black; padding: 10px; \x7d\n"
  ++ "th \x7b background: #e0e0e0; \x7d\n"
  ++ "#partition_down \x7b background: #ffa0a0; \x7d\n"
  ++ "</style>\n" ++ "</head>\n" ++ "<body>\n"
  ++ "<h3>Last update: "

/-- The fixed strings pushed between `last_update` and the node rows
(end of the update header, spacing, node-table header row). -/
def htmlAfterUpdate : String :=
  "</h3>"
  ++ "<br>\n<br>\n<br>\n<br>\n"
  ++ "<h3>Partition and node information:</h3>\n" ++ "<table>\n" ++ "<tr>\n"
  ++ "<th>Partition</th>" ++ "<th>Availability</th>" ++ "<th>Hostname</th>"
  ++ "<th>Node</th>" ++ "<th>Error</th>" ++ "<th>CPU load</th>"
  ++ "<th>Node state</th>" ++ "<th>Node sockets</th>" ++ "<th>Node cores</th>"
  ++ "<th>Node threads</th>"
  ++ "</tr>\n"

/-- The fixed strings pushed between the node rows and the job rows
(node-table end, spacing, job-table header row). -/
def htmlBetweenTables : String :=
  "</table>\n"
  ++ "<br>\n<br>\n<br>\n<br>\n"
  ++ "<h3>Job information:</h3>\n" ++ "<table>\n" ++ "<tr>\n"
  ++ "<th>Executing host</th>" ++ "<th>Min CPU</th>" ++ "<th>Num CPU</th>"
  ++ "<th>Num nodes</th>" ++ "<th>Job array ID</th>" ++ "<th>Number of Sockets</th>"
  ++ "<th>Job ID</th>" ++ "<th>Number of Cores</th>" ++ "<th>Job name</th>"
  ++ "<th>Number of threads</th>" ++ "<th>Job array index</th>" ++ "<th>Run time</th>"
  ++ "<th>List of nodes</th>" ++ "<th>Priority</th>" ++ "<th>State reason</th>"
  ++ "<th>Start time</th>" ++ "<th>Job state</th>" ++ "<th>User name</th>"
  ++ "<th>User ID</th>"
  ++ "</tr>\n"

/-- The fixed strings pushed after the job rows (job-table end, body and
document end). -/
def htmlDocTail : String :=
  "</table>\n" ++ "</body>\n" ++ "</html>\n"

/-- `status_to_html` from `slurm_status.rs`: a pure function from a snapshot
to the page string, assembled by appending in the exact order of the
source's `push_str` calls; the two `for` loops become left folds that append
one row per record. -/
def status_to_html (status : SlurmStatus) : String :=
  htmlDocHead
  ++ status.last_update
  ++ htmlAfterUpdate
  ++ status.node_info.foldl (fun acc node => acc ++ nodeRowHtml node) ""
  ++ htmlBetweenTables
  ++ status.job_info.foldl (fun acc job => acc ++ jobRowHtml job) ""
  ++ htmlDocTail

/-- `handle_request` from `request_handler.rs`, modelled at the level of the
returned page body: the `Mutex::lock` result becomes an `Except` argument
(`error` is a poisoned lock, carrying the error text), and the returned
string is the page handed to `string_to_response`. -/
def handle_request (lock_result : Except String SlurmStatus) : String :=
  match lock_result with
  | .ok status => status_to_html status
  | .error _ => "<h1>Could not lock Mutex!</h1>"

/-! ## The poller cycle of `check_slurm_status` (`slurm_status.rs`) -/

/-- One iteration of the endless `loop` in `check_slurm_status`: `lock_ok`
says whether `shared_slurm_status.lock()` returned `Ok`; `sinfo_out` and
`squeue_out` are the raw outputs `call_sinfo`/`call_squeue` would fetch this
cycle; `now_str` is the `strftime`-formatted current time.  On lock failure
only the error is logged and the stored snapshot is left unchanged. -/
def slurm_cycle (config : Configuration) (sinfo_out squeue_out now_str : String)
    (lock_ok : Bool) (status : SlurmStatus) : SlurmStatus :=
  if lock_ok then
    if config.test_mode then
      { node_info := get_partition_node_info_test
        job_info := get_job_info_test
        last_update := now_str }
    else
      { node_info := get_pn_info_util sinfo_out
        job_info := get_job_info_util squeue_out
        last_update := now_str }
  else status

/-- The per-cycle environment of the poller loop: what the external world
(command outputs, the clock, the lock) supplies to one iteration. -/
structure CycleInput where
  sinfo_out : String
  squeue_out : String
  now_str : String
  lock_ok : Bool
deriving DecidableEq, Repr

/-- The poller loop run over a finite prefix of its (infinite) schedule:
every listed iteration is processed in order, whatever each one's lock
outcome was. -/
def runPoller (config : Configuration) (inputs : List CycleInput)
    (status : SlurmStatus) : SlurmStatus :=
  inputs.foldl
    (fun st i => slurm_cycle config i.sinfo_out i.squeue_out i.now_str i.lock_ok st)
    status

/-! ## Lock-level model of the concurrency core

`check_slurm_status` runs one writer thread that, holding the mutex,
performs three separate assignments (`status.node_info = ...`,
`status.job_info = ...`, `status.last_update = ...`, lines 43-49 of
`slurm_status.rs`); `handle_request` readers hold the same mutex while
reading the snapshot.  The model tracks, for each of the three fields, the
polling cycle that produced its current content; the three assignments are
three separate transitions, so atomicity is exactly what the mutual
exclusion has to provide. -/

/-- Who currently holds the mutex. -/
inductive LockOwner where
  | writer
  | reader (i : Nat)
deriving DecidableEq, Repr

/-- The writer thread's position inside its polling cycle. -/
inductive WriterPC where
  /-- Outside the critical section (sleeping, or about to lock). -/
  | idle
  /-- Holds the mutex; no field written yet this cycle. -/
  | entered
  /-- Has written `node_info`. -/
  | wroteNode
  /-- Has also written `job_info`. -/
  | wroteJob
  /-- Has also written `last_update`. -/
  | wroteUpd
deriving DecidableEq, Repr

/-- Global state: the mutex, the provenance (producing cycle number) of each
snapshot field, the writer's program position and the current cycle number.
Cycle `0` is the initial empty snapshot built in `main.rs`. -/
structure SysState where
  lock : Option LockOwner
  nodeSrc : Nat
  jobSrc : Nat
  updSrc : Nat
  pc : WriterPC
  cycle : Nat
deriving DecidableEq, Repr

/-- Process start: lock free, all three fields from the initial snapshot. -/
def initState : SysState :=
  { lock := none, nodeSrc := 0, jobSrc := 0, updSrc := 0, pc := .idle, cycle := 0 }

/-- Interleaving semantics of the writer loop of `check_slurm_status` and
the `handle_request` readers.  The writer's three field assignments are
separate transitions executed while it holds the mutex; a reader may hold
the mutex between any two transitions of other actors. -/
inductive SysStep : SysState → SysState → Prop where
  /-- The writer's `shared_slurm_status.lock()` returns `Ok`, beginning a
  new polling cycle. -/
  | writerLock (s : SysState) (h : s.lock = none) (hpc : s.pc = .idle) :
      SysStep s { s with lock := some .writer, pc := .entered, cycle := s.cycle + 1 }
  /-- `status.node_info = ...` (line 43/46 of `slurm_status.rs`). -/
  | writeNode (s : SysState) (hpc : s.pc = .entered) :
      SysStep s { s with nodeSrc := s.cycle, pc := .wroteNode }
  /-- `status.job_info = ...` (line 44/47). -/
  | writeJob (s : SysState) (hpc : s.pc = .wroteNode) :
      SysStep s { s with jobSrc := s.cycle, pc := .wroteJob }
  /-- `status.last_update = ...` (line 49). -/
  | writeUpd (s : SysState) (hpc : s.pc = .wroteJob) :
      SysStep s { s with updSrc := s.cycle, pc := .wroteUpd }
  /-- The writer's `MutexGuard` is dropped; it goes to sleep. -/
  | writerUnlock (s : SysState) (hpc : s.pc = .wroteUpd) :
      SysStep s { s with lock := none, pc := .idle }
  /-- A request handler's `lock()` returns `Ok`; while it holds the guard
  it reads all three fields (`status_to_html(&status)`). -/
  | readerLock (s : SysState) (i : Nat) (h : s.lock = none) :
      SysStep s { s with lock := some (.reader i) }
  /-- The request handler's guard is dropped. -/
  | readerUnlock (s : SysState) (i : Nat) (h : s.lock = some (.reader i)) :
      SysStep s { s with lock := none }

/-- States reachable from process start. -/
inductive SysReachable : SysState → Prop where
  | init : SysReachable initState
  | step {s t : SysState} : SysReachable s → SysStep s t → SysReachable t

/-- Inductive invariant: whenever the writer is mid-cycle it holds the
mutex, and the provenance fields are consistent except in the writer's two
intermediate positions. -/
def SnapInv (s : SysState) : Prop :=
  (s.pc ≠ .idle → s.lock = some .writer)
  ∧ ((s.pc = .idle ∨ s.pc = .entered) → s.nodeSrc = s.jobSrc ∧ s.jobSrc = s.updSrc)
  ∧ (s.pc = .wroteNode → s.nodeSrc = s.cycle ∧ s.jobSrc = s.updSrc)
  ∧ (s.pc = .wroteJob → s.nodeSrc = s.cycle ∧ s.jobSrc = s.cycle)
  ∧ (s.pc = .wroteUpd → s.nodeSrc = s.cycle ∧ s.jobSrc = s.cycle ∧ s.updSrc = s.cycle)

theorem snapInv_init : SnapInv initState := by
  simp [SnapInv, initState]

theorem snapInv_step {s t : SysState} (hs : SnapInv s) (hstep : SysStep s t) :
    SnapInv t := by
  obtain ⟨h1, h2, h3, h4, h5⟩ := hs
  cases hstep with
  | writerLock h hpc =>
    refine ⟨fun _ => rfl, fun _ => h2 (Or.inl hpc), ?_, ?_, ?_⟩ <;> simp
  | writeNode hpc =>
    refine ⟨fun _ => h1 (by rw [hpc]; simp), ?_, ?_, ?_, ?_⟩ <;> simp_all
  | writeJob hpc =>
    refine ⟨fun _ => h1 (by rw [hpc]; simp), ?_, ?_, ?_, ?_⟩ <;> simp_all
  | writeUpd hpc =>
    refine ⟨fun _ => h1 (by rw [hpc]; simp), ?_, ?_, ?_, ?_⟩ <;> simp_all
  | writerUnlock hpc =>
    refine ⟨?_, ?_, ?_, ?_, ?_⟩ <;> simp_all
  | readerLock i h =>
    have hidle : s.pc = .idle := by
      by_contra hne
      rw [h1 hne] at h
      exact Option.noConfusion h
    refine ⟨?_, ?_, ?_, ?_, ?_⟩ <;> simp_all
  | readerUnlock i h =>
    have hidle : s.pc = .idle := by
      by_contra hne
      rw [h1 hne] at h
      exact (LockOwner.noConfusion (Option.some.inj h))
    refine ⟨?_, ?_, ?_, ?_, ?_⟩ <;> simp_all

theorem snapInv_reachable {s : SysState} (h : SysReachable s) : SnapInv s := by
  induction h with
  | init => exact snapInv_init
  | step _ hstep ih => exact snapInv_step ih hstep

/-! ## Helper lemmas: the record-parser loop as a `filterMap` -/

theorem foldl_push_filterMap {β α : Type} (q : β → Prop) [DecidablePred q] (g : β → α) :
    ∀ (l : List β) (acc : List α),
      l.foldl (fun r x => if q x then r else r ++ [g x]) acc
        = acc ++ l.filterMap (fun x => if q x then none else some (g x)) := by
  intro l
  induction l with
  | nil => intro acc; simp
  | cons x xs ih =>
    intro acc
    by_cases hx : q x <;> simp [hx, ih, List.append_assoc]

theorem get_pn_info_util_eq_filterMap (s : String) :
    get_pn_info_util s = (rustLines s).filterMap
      (fun line => if (splitWhitespace line).length = 10
                   then some (pnFromItems (splitWhitespace line)) else none) := by
  unfold get_pn_info_util
  rw [foldl_push_filterMap (fun line => (splitWhitespace line).length ≠ 10)
    (fun line => pnFromItems (splitWhitespace line)) (rustLines s) []]
  rw [List.nil_append]
  apply List.filterMap_congr
  intro x _
  by_cases hx : (splitWhitespace x).length = 10 <;> simp [hx]

theorem get_job_info_util_eq_filterMap (s : String) :
    get_job_info_util s = (rustLines s).filterMap
      (fun line => if (splitWhitespace line).length = 19
                   then some (jobFromItems (splitWhitespace line)) else none) := by
  unfold get_job_info_util
  rw [foldl_push_filterMap (fun line => (splitWhitespace line).length ≠ 19)
    (fun line => jobFromItems (splitWhitespace line)) (rustLines s) []]
  rw [List.nil_append]
  apply List.filterMap_congr
  intro x _
  by_cases hx : (splitWhitespace x).length = 19 <;> simp [hx]

/-! ## Helper lemmas: the `u32` parser agrees with its declarative description -/

/-- The decimal value of a digit list appended after an already-accumulated
value (the loop invariant of `u32Go`). -/
def decValueFrom (acc : Nat) (ds : List Char) : Nat :=
  ds.foldl (fun a c => a * 10 + decDigit c) acc

theorem decValue_eq_decValueFrom (ds : List Char) : decValue ds = decValueFrom 0 ds := rfl

theorem le_decValueFrom : ∀ (ds : List Char) (acc : Nat), acc ≤ decValueFrom acc ds := by
  intro ds
  induction ds with
  | nil => intro acc; exact Nat.le_refl acc
  | cons c cs ih =>
    intro acc
    calc acc ≤ acc * 10 + decDigit c := by omega
    _ ≤ decValueFrom (acc * 10 + decDigit c) cs := ih _

theorem u32Go_eq_some_iff :
    ∀ (ds : List Char) (acc v : Nat), acc < 4294967296 →
      (u32Go acc ds = some v ↔
        (∀ c ∈ ds, c.isDigit) ∧ decValueFrom acc ds < 4294967296 ∧ v = decValueFrom acc ds) := by
  intro ds
  induction ds with
  | nil =>
    intro acc v hacc
    constructor
    · intro h
      exact ⟨by simp, hacc, (Option.some.inj h).symm⟩
    · rintro ⟨-, -, rfl⟩
      rfl
  | cons c cs ih =>
    intro acc v hacc
    have hstep : decValueFrom acc (c :: cs) = decValueFrom (acc * 10 + decDigit c) cs := rfl
    by_cases hd : c.isDigit
    · by_cases hb : acc * 10 + decDigit c < 4294967296
      · rw [show u32Go acc (c :: cs) = u32Go (acc * 10 + decDigit c) cs by
          simp [u32Go, hd, hb]]
        rw [ih _ v hb, hstep]
        simp [hd]
      · rw [show u32Go acc (c :: cs) = none by simp [u32Go, hd, hb]]
        have hge : 4294967296 ≤ decValueFrom acc (c :: cs) := by
          rw [hstep]
          exact Nat.le_trans (by omega) (le_decValueFrom cs _)
        constructor
        · intro h
          exact Option.noConfusion h
        · rintro ⟨-, hlt, -⟩
          omega
    · rw [show u32Go acc (c :: cs) = none by simp [u32Go, hd]]
      constructor
      · intro h
        exact Option.noConfusion h
      · rintro ⟨hall, -, -⟩
        exact absurd (hall c (by simp)) hd

/-- Declarative description of a valid `u32` token (spec §4.2, "a token that
is a valid number parses to `present(value)`"): an optional `+` sign, one or
more decimal digits, and a value below `2 ^ 32`. -/
def U32Denotes (s : String) (v : Nat) : Prop :=
  ∃ ds : List Char, (s.data = ds ∨ s.data = '+' :: ds) ∧ ds ≠ [] ∧
    (∀ c ∈ ds, c.isDigit) ∧ decValue ds < 2 ^ 32 ∧ v = decValue ds

theorem pow_two_32 : (2 : Nat) ^ 32 = 4294967296 := by norm_num

theorem parseU32_eq_some_iff (s : String) (v : Nat) :
    parseU32 s = some v ↔ U32Denotes s v := by
  constructor
  · intro h
    unfold parseU32 at h
    cases hs : s.data with
    | nil => rw [hs] at h; exact Option.noConfusion h
    | cons c r =>
      rw [hs] at h
      simp only at h
      by_cases hc : c = '+'
      · rw [if_pos hc] at h
        by_cases hr : r = []
        · rw [if_pos hr] at h; exact Option.noConfusion h
        · rw [if_neg hr] at h
          obtain ⟨hall, hlt, hv⟩ := (u32Go_eq_some_iff r 0 v (by norm_num)).1 h
          exact ⟨r, Or.inr (by rw [hs, hc]), hr, hall,
            by rw [pow_two_32, decValue_eq_decValueFrom]; exact hlt,
            by rw [decValue_eq_decValueFrom]; exact hv⟩
      · rw [if_neg hc] at h
        obtain ⟨hall, hlt, hv⟩ := (u32Go_eq_some_iff (c :: r) 0 v (by norm_num)).1 h
        exact ⟨c :: r, Or.inl hs, by simp, hall,
          by rw [pow_two_32, decValue_eq_decValueFrom]; exact hlt,
          by rw [decValue_eq_decValueFrom]; exact hv⟩
  · rintro ⟨ds, hshape, hne, hall, hlt, rfl⟩
    have hgo : u32Go 0 ds = some (decValue ds) := by
      rw [u32Go_eq_some_iff ds 0 (decValue ds) (by norm_num)]
      exact ⟨hall, by rw [← decValue_eq_decValueFrom, ← pow_two_32]; exact hlt,
        decValue_eq_decValueFrom ds⟩
    rcases hshape with hds | hds
    · obtain ⟨c, r, rfl⟩ : ∃ c r, ds = c :: r := by
        cases ds with
        | nil => exact absurd rfl hne
        | cons c r => exact ⟨c, r, rfl⟩
      have hcd : c.isDigit := hall c (by simp)
      have hc : c ≠ '+' := by
        intro heq
        rw [heq] at hcd
        exact absurd hcd (by decide)
      unfold parseU32
      rw [hds]
      simpa [hc] using hgo
    · unfold parseU32
      rw [hds]
      simpa [hne] using hgo

/-! ## Helper lemmas: the `f64` parser agrees with its declarative description -/

theorem isDigit_toNat_bounds {c : Char} (h : c.isDigit = true) :
    48 ≤ c.toNat ∧ c.toNat ≤ 57 := by
  simp only [Char.isDigit, Bool.and_eq_true, decide_eq_true_eq] at h
  exact h

theorem char_toLower_eq_self_of_small {c : Char} (h : c.toNat < 65) : c.toLower = c := by
  have hlo : Char.toLower c =
      if 65 ≤ c.toNat ∧ c.toNat ≤ 90 then Char.ofNat (c.toNat + 32) else c := rfl
  rw [hlo, if_neg (by omega)]

theorem takeWhile_dropWhile_append {p : Char → Bool} {l₁ l₂ : List Char}
    (h1 : ∀ c ∈ l₁, p c = true) (h2 : ∀ c cs, l₂ = c :: cs → p c = false) :
    (l₁ ++ l₂).takeWhile p = l₁ ∧ (l₁ ++ l₂).dropWhile p = l₂ := by
  induction l₁ with
  | nil =>
    simp only [List.nil_append]
    cases hl : l₂ with
    | nil => simp
    | cons c cs =>
      have hc := h2 c cs hl
      constructor
      · simp [hc]
      · simp [hc]
  | cons a l ih =>
    have ha : p a = true := h1 a (by simp)
    obtain ⟨iht, ihd⟩ := ih (fun c hc => h1 c (by simp [hc]))
    constructor
    · simp [ha, iht]
    · simp [ha, ihd]

theorem dropWhile_cons_false {p : Char → Bool} {l : List Char} {c : Char} {cs : List Char}
    (h : l.dropWhile p = c :: cs) : p c = false := by
  induction l with
  | nil => simp at h
  | cons a t ih =>
    by_cases ha : p a
    · rw [List.dropWhile_cons_of_pos ha] at h
      exact ih h
    · rw [List.dropWhile_cons_of_neg ha] at h
      cases h
      exact Bool.of_not_eq_true ha

theorem mem_takeWhile_digit {l : List Char} :
    ∀ c ∈ l.takeWhile Char.isDigit, c.isDigit = true := by
  induction l with
  | nil => simp
  | cons a t ih =>
    by_cases ha : a.isDigit
    · rw [List.takeWhile_cons_of_pos ha]
      intro c hc
      rcases List.mem_cons.1 hc with rfl | hc
      · exact ha
      · exact ih c hc
    · rw [List.takeWhile_cons_of_neg ha]
      simp

/-- Declarative sign splitting (spec §4.2): a leading `-` marks the token
negative, a leading `+` positive; any other string is its own unsigned
body. -/
def SignSplits (cs : List Char) (neg : Bool) (body : List Char) : Prop :=
  (cs = '-' :: body ∧ neg = true) ∨
  (cs = '+' :: body ∧ neg = false) ∨
  (cs = body ∧ neg = false ∧ (∀ r : List Char, cs ≠ '-' :: r) ∧
    (∀ r : List Char, cs ≠ '+' :: r))

theorem splitSign_eq_iff (cs : List Char) (neg : Bool) (body : List Char) :
    splitSign cs = (neg, body) ↔ SignSplits cs neg body := by
  cases cs with
  | nil =>
    have he : splitSign [] = (false, []) := rfl
    rw [he]
    constructor
    · intro h
      injection h with hn hb
      subst hn
      subst hb
      exact Or.inr (Or.inr ⟨rfl, rfl, by simp, by simp⟩)
    · rintro (⟨h, -⟩ | ⟨h, -⟩ | ⟨h1, h2, -, -⟩)
      · exact absurd h (by simp)
      · exact absurd h (by simp)
      · subst h2
        rw [← h1]
  | cons c r =>
    have he : splitSign (c :: r) =
        if c = '-' then (true, r) else if c = '+' then (false, r) else (false, c :: r) := rfl
    rw [he]
    by_cases hm : c = '-'
    · subst hm
      rw [if_pos rfl]
      constructor
      · intro h
        injection h with hn hb
        subst hn
        subst hb
        exact Or.inl ⟨rfl, rfl⟩
      · rintro (⟨h1, h2⟩ | ⟨h1, h2⟩ | ⟨-, -, h3, -⟩)
        · injection h1 with h1a hb
          subst hb
          subst h2
          rfl
        · exact absurd h1 (by simp)
        · exact absurd rfl (h3 r)
    · by_cases hp : c = '+'
      · subst hp
        rw [if_neg (by decide), if_pos rfl]
        constructor
        · intro h
          injection h with hn hb
          subst hn
          subst hb
          exact Or.inr (Or.inl ⟨rfl, rfl⟩)
        · rintro (⟨h1, h2⟩ | ⟨h1, h2⟩ | ⟨-, -, -, h4⟩)
          · exact absurd h1 (by simp)
          · injection h1 with h1a hb
            subst hb
            subst h2
            rfl
          · exact absurd rfl (h4 r)
      · rw [if_neg hm, if_neg hp]
        constructor
        · intro h
          injection h with hn hb
          subst hn
          subst hb
          refine Or.inr (Or.inr ⟨rfl, rfl, ?_, ?_⟩)
          · intro x hx
            injection hx with hc hrest
            exact hm hc
          · intro x hx
            injection hx with hc hrest
            exact hp hc
        · rintro (⟨h1, -⟩ | ⟨h1, -⟩ | ⟨h1, h2, -, -⟩)
          · injection h1 with hc hrest
            exact absurd hc hm
          · injection h1 with hc hrest
            exact absurd hc hp
          · subst h2
            rw [← h1]

/-- Predicate: every character is an ASCII digit. -/
def DigitsOnly (l : List Char) : Prop := ∀ c ∈ l, c.isDigit = true

/-- Declarative mantissa grammar of Rust's `f64::from_str` (spec §4.2): the
consumed part `mant` is either a nonempty run of digits, or digits, a dot
and further digits with at least one digit overall; `ip`/`fp` are its
integer and fraction digits. -/
def MantissaShape (mant ip fp : List Char) : Prop :=
  (mant = ip ∧ fp = [] ∧ ip ≠ [] ∧ DigitsOnly ip) ∨
  (mant = ip ++ '.' :: fp ∧ DigitsOnly ip ∧ DigitsOnly fp ∧ (ip ≠ [] ∨ fp ≠ []))

/-- Declarative exponent grammar: empty (exponent `0`), or `e`/`E`, an
optional sign and a nonempty run of digits reaching the end of the token. -/
def ExpShape (t : List Char) (e : ℤ) : Prop :=
  (t = [] ∧ e = 0) ∨
  (∃ c rest eneg ds, t = c :: rest ∧ (c = 'e' ∨ c = 'E') ∧ SignSplits rest eneg ds ∧
    ds ≠ [] ∧ DigitsOnly ds ∧
    e = if eneg then -(decValue ds : ℤ) else (decValue ds : ℤ))

theorem expShape_head_not_digit_dot {t : List Char} {e : ℤ} (h : ExpShape t e) :
    ∀ c cs2, t = c :: cs2 → c.isDigit = false ∧ c ≠ '.' := by
  intro c cs2 ht
  rcases h with ⟨h1, -⟩ | ⟨c2, rest, eneg, ds, h1, hc, -⟩
  · rw [h1] at ht
    exact absurd ht (by simp)
  · rw [h1] at ht
    injection ht with hc2 hrest
    subst hc2
    rcases hc with rfl | rfl
    · exact ⟨by decide, by decide⟩
    · exact ⟨by decide, by decide⟩

theorem parseMantissa_some {cs ip fp rest : List Char}
    (h : parseMantissa cs = some (ip, fp, rest)) :
    ∃ mant, cs = mant ++ rest ∧ MantissaShape mant ip fp := by
  have hsplit := List.takeWhile_append_dropWhile Char.isDigit cs
  unfold parseMantissa at h
  cases hd : cs.dropWhile Char.isDigit with
  | nil =>
    rw [hd] at h
    dsimp only at h
    by_cases ht : cs.takeWhile Char.isDigit = []
    · rw [if_pos ht] at h
      exact Option.noConfusion h
    · rw [if_neg ht] at h
      simp only [Option.some.injEq, Prod.mk.injEq] at h
      obtain ⟨rfl, rfl, rfl⟩ := h
      refine ⟨cs.takeWhile Char.isDigit, ?_,
        Or.inl ⟨rfl, rfl, ht, mem_takeWhile_digit⟩⟩
      rw [List.append_nil]
      rw [hd, List.append_nil] at hsplit
      exact hsplit.symm
  | cons c rest2 =>
    rw [hd] at h
    dsimp only at h
    by_cases hc : c = '.'
    · rw [if_pos hc] at h
      by_cases hg : cs.takeWhile Char.isDigit = [] ∧ rest2.takeWhile Char.isDigit = []
      · rw [if_pos hg] at h
        exact Option.noConfusion h
      · rw [if_neg hg] at h
        simp only [Option.some.injEq, Prod.mk.injEq] at h
        obtain ⟨rfl, rfl, rfl⟩ := h
        subst hc
        refine ⟨cs.takeWhile Char.isDigit ++ '.' :: rest2.takeWhile Char.isDigit, ?_,
          Or.inr ⟨rfl, mem_takeWhile_digit, mem_takeWhile_digit, ?_⟩⟩
        · rw [List.append_assoc, List.cons_append,
            List.takeWhile_append_dropWhile Char.isDigit rest2, ← hd]
          exact hsplit.symm
        · by_cases hip : cs.takeWhile Char.isDigit = []
          · exact Or.inr fun hfp => hg ⟨hip, hfp⟩
          · exact Or.inl hip
    · rw [if_neg hc] at h
      by_cases ht : cs.takeWhile Char.isDigit = []
      · rw [if_pos ht] at h
        exact Option.noConfusion h
      · rw [if_neg ht] at h
        simp only [Option.some.injEq, Prod.mk.injEq] at h
        obtain ⟨rfl, rfl, rfl⟩ := h
        refine ⟨cs.takeWhile Char.isDigit, ?_,
          Or.inl ⟨rfl, rfl, ht, mem_takeWhile_digit⟩⟩
        rw [← hd]
        exact hsplit.symm

theorem parseMantissa_append {mant tail ip fp : List Char}
    (hshape : MantissaShape mant ip fp)
    (htail : ∀ c cs2, tail = c :: cs2 → c.isDigit = false ∧ c ≠ '.') :
    parseMantissa (mant ++ tail) = some (ip, fp, tail) := by
  rcases hshape with ⟨rfl, rfl, hne, hdig⟩ | ⟨rfl, hdig1, hdig2, hor⟩
  · obtain ⟨htw, hdw⟩ := @takeWhile_dropWhile_append _ _ tail hdig
      (fun c cs2 hcc => (htail c cs2 hcc).1)
    unfold parseMantissa
    cases ht : tail with
    | nil =>
      subst ht
      rw [hdw]
      dsimp only
      rw [htw, if_neg hne]
    | cons c cs2 =>
      subst ht
      rw [hdw]
      dsimp only
      rw [if_neg (htail c cs2 rfl).2, htw, if_neg hne]
  · have hassoc : (ip ++ '.' :: fp) ++ tail = ip ++ '.' :: (fp ++ tail) := by
      rw [List.append_assoc]
      rfl
    obtain ⟨htw, hdw⟩ := @takeWhile_dropWhile_append _ _ ('.' :: (fp ++ tail)) hdig1
      (by
        intro c cs2 hcc
        injection hcc with hc1 hc2
        subst hc1
        decide)
    obtain ⟨htw2, hdw2⟩ := @takeWhile_dropWhile_append _ _ tail hdig2
      (fun c cs2 hcc => (htail c cs2 hcc).1)
    unfold parseMantissa
    rw [hassoc, hdw]
    dsimp only
    rw [if_pos rfl, htw, htw2, hdw2, if_neg]
    intro hg
    rcases hor with hip | hfp
    · exact hip hg.1
    · exact hfp hg.2

theorem parseExp_eq_some_iff (t : List Char) (e : ℤ) :
    parseExp t = some e ↔ ExpShape t e := by
  cases t with
  | nil =>
    unfold parseExp ExpShape
    constructor
    · intro h
      injection h with h
      exact Or.inl ⟨rfl, h.symm⟩
    · rintro (⟨-, rfl⟩ | ⟨c, rest, eneg, ds, h1, -⟩)
      · rfl
      · exact absurd h1 (by simp)
  | cons c rest =>
    unfold parseExp
    constructor
    · intro h
      dsimp only at h
      by_cases hc : c = 'e' ∨ c = 'E'
      · rw [if_pos hc] at h
        by_cases hg : (splitSign rest).2 ≠ [] ∧ (splitSign rest).2.all Char.isDigit
        · rw [if_pos hg] at h
          injection h with h
          refine Or.inr ⟨c, rest, (splitSign rest).1, (splitSign rest).2, rfl, hc,
            (splitSign_eq_iff rest _ _).1 rfl, hg.1, ?_, h.symm⟩
          intro c2 hc2
          exact List.all_eq_true.1 hg.2 c2 hc2
        · rw [if_neg hg] at h
          exact Option.noConfusion h
      · rw [if_neg hc] at h
        exact Option.noConfusion h
    · rintro (⟨h1, -⟩ | ⟨c2, rest2, eneg, ds, h1, hc, hsp, hne, hdig, rfl⟩)
      · exact absurd h1 (by simp)
      · injection h1 with hc2 hrest
        subst hc2
        subst hrest
        have hss : splitSign rest = (eneg, ds) := (splitSign_eq_iff rest eneg ds).2 hsp
        dsimp only
        rw [if_pos hc, hss]
        rw [if_pos ⟨hne, List.all_eq_true.2 hdig⟩]

theorem decTokenVal_eq (neg : Bool) (ip fp : List Char) (e : ℤ) :
    decTokenVal neg ip fp e =
      (if neg then (-1 : ℚ) else 1) *
        (((decValue ip : ℚ) + (decValue fp : ℚ) / (10 : ℚ) ^ fp.length) * (10 : ℚ) ^ e) := by
  unfold decTokenVal
  have h10L : ((10 : ℚ) ^ fp.length) ≠ 0 := by positivity
  by_cases he : 0 ≤ e
  · rw [if_pos he, Rat.mkRat_eq_div]
    have hze : (10 : ℚ) ^ e = (10 : ℚ) ^ (e.toNat : ℕ) := by
      rw [← zpow_natCast (10 : ℚ) e.toNat, Int.toNat_of_nonneg he]
    rw [hze]
    push_cast
    field_simp
    ring_nf
  · rw [if_neg he, Rat.mkRat_eq_div]
    have hze : (10 : ℚ) ^ e = ((10 : ℚ) ^ ((-e).toNat : ℕ))⁻¹ := by
      rw [← zpow_natCast (10 : ℚ) (-e).toNat, Int.toNat_of_nonneg (by omega), ← zpow_neg,
        neg_neg]
    rw [hze]
    push_cast
    field_simp

theorem mantissaShape_head_small {mant tail ip fp : List Char}
    (hshape : MantissaShape mant ip fp) :
    ∃ b0 rest0, mant ++ tail = b0 :: rest0 ∧ b0.toNat < 65 := by
  rcases hshape with ⟨rfl, -, hne, hdig⟩ | ⟨rfl, hdig1, -, -⟩
  · cases hip : mant with
    | nil => exact absurd hip hne
    | cons c r =>
      have hc : c.isDigit = true := hdig c (by rw [hip]; simp)
      have hb := isDigit_toNat_bounds hc
      exact ⟨c, r ++ tail, rfl, by omega⟩
  · cases ip with
    | nil =>
      refine ⟨'.', fp ++ tail, by simp, by decide⟩
    | cons c r =>
      have hc : c.isDigit = true := hdig1 c (by simp)
      have hb := isDigit_toNat_bounds hc
      refine ⟨c, (r ++ '.' :: fp) ++ tail, by simp, by omega⟩

theorem map_toLower_ne_of_small_head {b0 : Char} {rest0 : List Char} {target : List Char}
    (hsmall : b0.toNat < 65) (t0 : Char) (trest : List Char) (htarget : target = t0 :: trest)
    (ht0 : 90 < t0.toNat) : (b0 :: rest0).map Char.toLower ≠ target := by
  intro heq
  subst htarget
  rw [List.map_cons] at heq
  injection heq with h1 h2
  rw [char_toLower_eq_self_of_small hsmall] at h1
  rw [h1] at hsmall
  omega

theorem sign_mul_eq (neg : Bool) (q : ℚ) :
    (if neg then (-1 : ℚ) else 1) * q = if neg then -q else q := by
  cases neg <;> simp

/-- The special `f64` tokens (spec §4.2 via Rust `f64::from_str`): the body
spells `inf`, `infinity` or `nan` in any letter case. -/
def SpecialTokenVal (neg : Bool) (body : List Char) (v : F64) : Prop :=
  ((body.map Char.toLower = "inf".data ∨ body.map Char.toLower = "infinity".data) ∧
    v = if neg then F64.negInf else F64.posInf) ∨
  (body.map Char.toLower = "nan".data ∧ v = F64.nan)

/-- Declarative description of a finite decimal `f64` token body and its
exact value: a mantissa, then an exponent suffix, valued as
`(intpart + fracpart / 10 ^ fracdigits) * 10 ^ exponent`. -/
def FiniteTokenDenotes (body : List Char) (q : ℚ) : Prop :=
  ∃ mant tail ip fp e, body = mant ++ tail ∧ MantissaShape mant ip fp ∧ ExpShape tail e ∧
    q = ((decValue ip : ℚ) + (decValue fp : ℚ) / (10 : ℚ) ^ fp.length) * (10 : ℚ) ^ e

/-- Declarative description of a valid `f64` token (spec §4.2, "a token that
is a valid number parses to `present(value)`"): a nonempty string whose
optional sign is followed by a special token or by a finite decimal body,
with the sign applied to the value. -/
def F64Denotes (s : String) (v : F64) : Prop :=
  ∃ neg body, s.data ≠ [] ∧ SignSplits s.data neg body ∧
    (SpecialTokenVal neg body v ∨
      ∃ q, FiniteTokenDenotes body q ∧ v = F64.finite (if neg then -q else q))

theorem finiteTokenDenotes_not_special {body : List Char} {q : ℚ}
    (h : FiniteTokenDenotes body q) :
    body.map Char.toLower ≠ "inf".data ∧ body.map Char.toLower ≠ "infinity".data ∧
      body.map Char.toLower ≠ "nan".data := by
  obtain ⟨mant, tail, ip, fp, e, rfl, hshape, -, -⟩ := h
  obtain ⟨b0, rest0, heq, hsmall⟩ := @mantissaShape_head_small _ tail _ _ hshape
  rw [heq]
  refine ⟨?_, ?_, ?_⟩
  · exact map_toLower_ne_of_small_head hsmall 'i' ['n', 'f'] rfl (by decide)
  · exact map_toLower_ne_of_small_head hsmall 'i'
      ['n', 'f', 'i', 'n', 'i', 't', 'y'] rfl (by decide)
  · exact map_toLower_ne_of_small_head hsmall 'n' ['a', 'n'] rfl (by decide)

theorem parseF64_eq_some_iff (s : String) (v : F64) :
    parseF64 s = some v ↔ F64Denotes s v := by
  unfold parseF64
  by_cases hne : s.data = []
  · rw [if_pos hne]
    constructor
    · intro h
      exact Option.noConfusion h
    · rintro ⟨neg, body, hne2, -⟩
      exact absurd hne hne2
  · rw [if_neg hne]
    have hsp : SignSplits s.data (splitSign s.data).1 (splitSign s.data).2 :=
      (splitSign_eq_iff s.data (splitSign s.data).1 (splitSign s.data).2).1 rfl
    constructor
    · intro h
      by_cases hinf : (splitSign s.data).2.map Char.toLower = "inf".data ∨
          (splitSign s.data).2.map Char.toLower = "infinity".data
      · rw [if_pos hinf] at h
        injection h with h
        exact ⟨(splitSign s.data).1, (splitSign s.data).2, hne, hsp,
          Or.inl (Or.inl ⟨hinf, h.symm⟩)⟩
      · rw [if_neg hinf] at h
        by_cases hnan : (splitSign s.data).2.map Char.toLower = "nan".data
        · rw [if_pos hnan] at h
          injection h with h
          exact ⟨(splitSign s.data).1, (splitSign s.data).2, hne, hsp,
            Or.inl (Or.inr ⟨hnan, h.symm⟩)⟩
        · rw [if_neg hnan] at h
          cases hm : parseMantissa (splitSign s.data).2 with
          | none =>
            rw [hm] at h
            exact Option.noConfusion h
          | some val =>
            obtain ⟨ip, fp, rest⟩ := val
            rw [hm] at h
            dsimp only at h
            cases hx : parseExp rest with
            | none =>
              rw [hx] at h
              exact Option.noConfusion h
            | some e =>
              rw [hx] at h
              dsimp only at h
              injection h with h
              obtain ⟨mant, hbody, hshape⟩ := parseMantissa_some hm
              refine ⟨(splitSign s.data).1, (splitSign s.data).2, hne, hsp,
                Or.inr ⟨((decValue ip : ℚ) + (decValue fp : ℚ) / (10 : ℚ) ^ fp.length) *
                  (10 : ℚ) ^ e, ⟨mant, rest, ip, fp, e, hbody, hshape,
                    (parseExp_eq_some_iff rest e).1 hx, rfl⟩, ?_⟩⟩
              rw [← h, decTokenVal_eq, sign_mul_eq]
    · rintro ⟨neg, body, -, hsp2, hcase⟩
      have hss : splitSign s.data = (neg, body) :=
        (splitSign_eq_iff s.data neg body).2 hsp2
      rcases hcase with (⟨hbody, rfl⟩ | ⟨hbody, rfl⟩) | ⟨q, hfin, rfl⟩
      · rw [hss]
        rw [if_pos hbody]
      · obtain ⟨hni, hnif, -⟩ :
          body.map Char.toLower ≠ "inf".data ∧
            body.map Char.toLower ≠ "infinity".data ∧ True := by
          constructor
          · intro hcontra
            rw [hcontra] at hbody
            exact absurd hbody (by decide)
          · constructor
            · intro hcontra
              rw [hcontra] at hbody
              exact absurd hbody (by decide)
            · trivial
        rw [hss]
        rw [if_neg (by
          intro hcontra
          rcases hcontra with hcontra | hcontra
          · exact hni hcontra
          · exact hnif hcontra), if_pos hbody]
      · obtain ⟨hni, hnif, hnn⟩ := finiteTokenDenotes_not_special hfin
        obtain ⟨mant, tail, ip, fp, e, hbody, hshape, hexp, hq⟩ := hfin
        have hmant : parseMantissa body = some (ip, fp, tail) := by
          rw [hbody]
          exact parseMantissa_append hshape (expShape_head_not_digit_dot hexp)
        have hx : parseExp tail = some e := (parseExp_eq_some_iff tail e).2 hexp
        rw [hss]
        rw [if_neg (by
          intro hcontra
          rcases hcontra with hcontra | hcontra
          · exact hni hcontra
          · exact hnif hcontra), if_neg hnn]
        dsimp only
        rw [hmant]
        dsimp only
        rw [hx]
        dsimp only
        rw [decTokenVal_eq, sign_mul_eq, hq]

/-! ## Helper lemmas for the renderer and the poller loop -/

theorem string_foldl_append (l : List String) :
    ∀ x y : String, l.foldl (fun r s => r ++ s) (x ++ y) = x ++ l.foldl (fun r s => r ++ s) y := by
  induction l with
  | nil => intro x y; rfl
  | cons a t ih =>
    intro x y
    rw [List.foldl_cons, List.foldl_cons, String.append_assoc]
    exact ih x (y ++ a)

theorem string_join_cons (a : String) (l : List String) :
    String.join (a :: l) = a ++ String.join l := by
  show l.foldl (fun r s => r ++ s) ("" ++ a) = a ++ l.foldl (fun r s => r ++ s) ""
  rw [String.empty_append, ← String.append_empty a, string_foldl_append, String.append_empty]

theorem foldl_append_eq_join {α : Type} (f : α → String) :
    ∀ (l : List α) (init : String),
      l.foldl (fun acc x => acc ++ f x) init = init ++ String.join (l.map f) := by
  intro l
  induction l with
  | nil =>
    intro init
    rw [List.foldl_nil, List.map_nil]
    exact (String.append_empty init).symm
  | cons a t ih =>
    intro init
    rw [List.foldl_cons, List.map_cons, ih, string_join_cons, String.append_assoc]

/-- The recognized tokens of `str_to_error`. -/
def errorTokens : List String := ["down", "drained", "draining", "none"]

/-- The recognized tokens of `str_to_node_state`. -/
def nodeStateTokens : List String :=
  ["alloc", "allocated", "completing", "down", "drained", "draining", "fail",
   "failing", "idle", "maint"]

/-- The recognized tokens of `str_to_state_reason`. -/
def stateReasonTokens : List String :=
  ["dependency", "none", "partitiondown", "partitionnodelimit",
   "partitiontimelimit", "priority", "resources", "nodedown", "badconstraints",
   "systemfailure", "joblaunchfailure", "nonzeroexitcode", "timelimit",
   "inactivelimit"]

/-- The recognized tokens of `str_to_job_state`. -/
def jobStateTokens : List String :=
  ["cancelled", "completed", "configuring", "completing", "failed", "node_fail",
   "pending", "preempted", "running", "suspended", "timeout"]

theorem str_to_error_unknown {s : String} (h : strLower s ∉ errorTokens) :
    str_to_error s = .Unknown := by
  simp only [errorTokens, List.mem_cons, List.not_mem_nil, or_false, not_or] at h
  obtain ⟨h1, h2, h3, h4⟩ := h
  unfold str_to_error
  rw [if_neg h1, if_neg h2, if_neg h3, if_neg h4]

theorem str_to_node_state_unknown {s : String} (h : strLower s ∉ nodeStateTokens) :
    str_to_node_state s = .Unknown := by
  simp only [nodeStateTokens, List.mem_cons, List.not_mem_nil, or_false, not_or] at h
  obtain ⟨h1, h2, h3, h4, h5, h6, h7, h8, h9, h10⟩ := h
  unfold str_to_node_state
  rw [if_neg (by exact fun hc => hc.elim h1 h2), if_neg h3, if_neg h4, if_neg h5,
    if_neg h6, if_neg h7, if_neg h8, if_neg h9, if_neg h10]

theorem str_to_state_reason_unknown {s : String} (h : strLower s ∉ stateReasonTokens) :
    str_to_state_reason s = .Unknown := by
  simp only [stateReasonTokens, List.mem_cons, List.not_mem_nil, or_false, not_or] at h
  obtain ⟨h1, h2, h3, h4, h5, h6, h7, h8, h9, h10, h11, h12, h13, h14⟩ := h
  unfold str_to_state_reason
  rw [if_neg h1, if_neg h2, if_neg h3, if_neg h4, if_neg h5, if_neg h6, if_neg h7,
    if_neg h8, if_neg h9, if_neg h10, if_neg h11, if_neg h12, if_neg h13, if_neg h14]

theorem str_to_job_state_unknown {s : String} (h : strLower s ∉ jobStateTokens) :
    str_to_job_state s = .Unknown := by
  simp only [jobStateTokens, List.mem_cons, List.not_mem_nil, or_false, not_or] at h
  obtain ⟨h1, h2, h3, h4, h5, h6, h7, h8, h9, h10, h11⟩ := h
  unfold str_to_job_state
  rw [if_neg h1, if_neg h2, if_neg h3, if_neg h4, if_neg h5, if_neg h6, if_neg h7,
    if_neg h8, if_neg h9, if_neg h10, if_neg h11]

theorem length_filterMap_ite {α β : Type} (p : α → Prop) [DecidablePred p] (g : α → β)
    (l : List α) :
    (l.filterMap (fun x => if p x then some (g x) else none)).length
      = (l.filter (fun x => decide (p x))).length := by
  induction l with
  | nil => rfl
  | cons a t ih =>
    by_cases ha : p a <;> simp [ha, ih]

/-- A concrete reachable state in which reader `0` holds the lock after one
complete writer cycle. -/
def demoState : SysState :=
  { lock := some (.reader 0), nodeSrc := 1, jobSrc := 1, updSrc := 1,
    pc := .idle, cycle := 1 }

theorem demoState_reachable : SysReachable demoState := by
  have h0 : SysReachable initState := SysReachable.init
  have h1 := SysReachable.step h0 (SysStep.writerLock initState rfl rfl)
  have h2 := SysReachable.step h1 (SysStep.writeNode _ rfl)
  have h3 := SysReachable.step h2 (SysStep.writeJob _ rfl)
  have h4 := SysReachable.step h3 (SysStep.writeUpd _ rfl)
  have h5 := SysReachable.step h4 (SysStep.writerUnlock _ rfl)
  have h6 := SysReachable.step h5 (SysStep.readerLock _ 0 rfl)
  exact h6

/-! ## The claims -/

/-- C1: Snapshot atomicity.  In every reachable state of the lock-level model
of `check_slurm_status` and `handle_request` (one writer cycle updates
`node_info`, `job_info` and `last_update` as three separate writes while
holding the mutex; each reader holds the mutex while it reads), whenever a
reader holds the lock the three snapshot fields were all produced by the
same writer cycle — no read observes `node_info` from one polling cycle
paired with `job_info` from another. -/
theorem c1_snapshot_atomicity :
    ∀ s : SysState, SysReachable s → ∀ i : Nat, s.lock = some (LockOwner.reader i) →
      s.nodeSrc = s.jobSrc ∧ s.jobSrc = s.updSrc ∧
        ∃ k, s.nodeSrc = k ∧ s.jobSrc = k ∧ s.updSrc = k := by
  intro s hreach i hlock
  obtain ⟨h1, h2, -, -, -⟩ := snapInv_reachable hreach
  have hidle : s.pc = .idle := by
    by_contra hpc
    rw [h1 hpc] at hlock
    exact LockOwner.noConfusion (Option.some.inj hlock)
  obtain ⟨ha, hb⟩ := h2 (Or.inl hidle)
  exact ⟨ha, hb, s.nodeSrc, rfl, ha.symm, (ha.trans hb).symm⟩

theorem c1_snapshot_atomicity_witness :
    SysReachable demoState ∧ demoState.lock = some (LockOwner.reader 0) ∧
      demoState.nodeSrc = demoState.jobSrc ∧ demoState.jobSrc = demoState.updSrc :=
  ⟨demoState_reachable, rfl,
    (c1_snapshot_atomicity demoState demoState_reachable 0 rfl).1,
    (c1_snapshot_atomicity demoState demoState_reachable 0 rfl).2.1⟩

/-- C2: Arity filtering.  For every input string, `get_pn_info_util` produces
exactly one record for each line with exactly 10 whitespace tokens and zero
records for any other line, in order (it equals a `filterMap` over the
lines); `get_job_info_util` does the same with arity 19; inputs with no
matching line — the empty input in particular — yield `[]`, never an
error. -/
theorem c2_arity_filtering :
    ∀ s : String,
      get_pn_info_util s = (rustLines s).filterMap
        (fun line => if (splitWhitespace line).length = 10
                     then some (pnFromItems (splitWhitespace line)) else none)
      ∧ get_job_info_util s = (rustLines s).filterMap
        (fun line => if (splitWhitespace line).length = 19
                     then some (jobFromItems (splitWhitespace line)) else none)
      ∧ (get_pn_info_util s).length
          = ((rustLines s).filter
              (fun line => decide ((splitWhitespace line).length = 10))).length
      ∧ (get_job_info_util s).length
          = ((rustLines s).filter
              (fun line => decide ((splitWhitespace line).length = 19))).length
      ∧ ((∀ line ∈ rustLines s, (splitWhitespace line).length ≠ 10) →
          get_pn_info_util s = [])
      ∧ ((∀ line ∈ rustLines s, (splitWhitespace line).length ≠ 19) →
          get_job_info_util s = [])
      ∧ get_pn_info_util "" = [] ∧ get_job_info_util "" = [] := by
  intro s
  refine ⟨get_pn_info_util_eq_filterMap s, get_job_info_util_eq_filterMap s,
    ?_, ?_, ?_, ?_, by decide, by decide⟩
  · rw [get_pn_info_util_eq_filterMap s]
    exact length_filterMap_ite _ _ _
  · rw [get_job_info_util_eq_filterMap s]
    exact length_filterMap_ite _ _ _
  · intro hall
    rw [get_pn_info_util_eq_filterMap s]
    rw [List.filterMap_eq_nil_iff]
    intro line hline
    rw [if_neg (hall line hline)]
  · intro hall
    rw [get_job_info_util_eq_filterMap s]
    rw [List.filterMap_eq_nil_iff]
    intro line hline
    rw [if_neg (hall line hline)]

theorem c2_arity_filtering_witness :
    (∀ line ∈ rustLines "1 2 3", (splitWhitespace line).length ≠ 10) ∧
      get_pn_info_util "1 2 3" = [] ∧
      (∀ line ∈ rustLines "1 2 3 4", (splitWhitespace line).length ≠ 19) ∧
      get_job_info_util "1 2 3 4" = [] :=
  ⟨by decide, (c2_arity_filtering "1 2 3").2.2.2.2.1 (by decide),
   by decide, (c2_arity_filtering "1 2 3 4").2.2.2.2.2.1 (by decide)⟩

/-- C3: Case-insensitive classification.  Each of the four `Unknown`-fallback
classifiers (`str_to_error`, `str_to_node_state`, `str_to_state_reason`,
`str_to_job_state`) returns the same value on `s`, on `s` fully upper-cased
and on `s` fully lower-cased, for every string `s`; and every string whose
lower-casing is not one of the recognized tokens maps to the `Unknown`
variant. -/
theorem c3_case_insensitive_classification :
    ∀ s : String,
      (str_to_error (strUpper s) = str_to_error s
        ∧ str_to_error (strLower s) = str_to_error s
        ∧ (strLower s ∉ errorTokens → str_to_error s = .Unknown))
      ∧ (str_to_node_state (strUpper s) = str_to_node_state s
        ∧ str_to_node_state (strLower s) = str_to_node_state s
        ∧ (strLower s ∉ nodeStateTokens → str_to_node_state s = .Unknown))
      ∧ (str_to_state_reason (strUpper s) = str_to_state_reason s
        ∧ str_to_state_reason (strLower s) = str_to_state_reason s
        ∧ (strLower s ∉ stateReasonTokens → str_to_state_reason s = .Unknown))
      ∧ (str_to_job_state (strUpper s) = str_to_job_state s
        ∧ str_to_job_state (strLower s) = str_to_job_state s
        ∧ (strLower s ∉ jobStateTokens → str_to_job_state s = .Unknown)) := by
  intro s
  exact ⟨⟨str_to_error_congr (strLower_strUpper s),
      str_to_error_congr (strLower_strLower s), str_to_error_unknown⟩,
    ⟨str_to_node_state_congr (strLower_strUpper s),
      str_to_node_state_congr (strLower_strLower s), str_to_node_state_unknown⟩,
    ⟨str_to_state_reason_congr (strLower_strUpper s),
      str_to_state_reason_congr (strLower_strLower s), str_to_state_reason_unknown⟩,
    ⟨str_to_job_state_congr (strLower_strUpper s),
      str_to_job_state_congr (strLower_strLower s), str_to_job_state_unknown⟩⟩

theorem c3_case_insensitive_classification_witness :
    (strLower "xyzzy" ∉ errorTokens ∧ str_to_error "xyzzy" = .Unknown)
      ∧ (strLower "xyzzy" ∉ nodeStateTokens ∧ str_to_node_state "xyzzy" = .Unknown)
      ∧ (strLower "xyzzy" ∉ stateReasonTokens ∧ str_to_state_reason "xyzzy" = .Unknown)
      ∧ (strLower "xyzzy" ∉ jobStateTokens ∧ str_to_job_state "xyzzy" = .Unknown) :=
  ⟨⟨by decide, (c3_case_insensitive_classification "xyzzy").1.2.2 (by decide)⟩,
   ⟨by decide, (c3_case_insensitive_classification "xyzzy").2.1.2.2 (by decide)⟩,
   ⟨by decide, (c3_case_insensitive_classification "xyzzy").2.2.1.2.2 (by decide)⟩,
   ⟨by decide, (c3_case_insensitive_classification "xyzzy").2.2.2.2.2 (by decide)⟩⟩

/-- C4: Availability fallback asymmetry.  `str_to_availability` returns `Up`
exactly when the input lower-cases to `"up"` and `Down` for every other
string — it has no `Unknown` result — while the error-cause, node-state,
state-reason and job-state classifiers return an explicit `Unknown` on
every unrecognized input. -/
theorem c4_availability_fallback :
    ∀ s : String,
      (str_to_availability s = .Up ↔ strLower s = "up")
      ∧ (strLower s ≠ "up" → str_to_availability s = .Down)
      ∧ (str_to_availability s = .Up ∨ str_to_availability s = .Down)
      ∧ (strLower s ∉ errorTokens → str_to_error s = .Unknown)
      ∧ (strLower s ∉ nodeStateTokens → str_to_node_state s = .Unknown)
      ∧ (strLower s ∉ stateReasonTokens → str_to_state_reason s = .Unknown)
      ∧ (strLower s ∉ jobStateTokens → str_to_job_state s = .Unknown) := by
  intro s
  refine ⟨?_, ?_, ?_, str_to_error_unknown, str_to_node_state_unknown,
    str_to_state_reason_unknown, str_to_job_state_unknown⟩
  · unfold str_to_availability
    by_cases h : strLower s = "up"
    · rw [if_pos h]
      exact ⟨fun _ => h, fun _ => rfl⟩
    · rw [if_neg h]
      exact ⟨fun hc => PartitionAvailability.noConfusion hc, fun hc => absurd hc h⟩
  · intro h
    unfold str_to_availability
    rw [if_neg h]
  · unfold str_to_availability
    by_cases h : strLower s = "up"
    · rw [if_pos h]
      exact Or.inl rfl
    · rw [if_neg h]
      exact Or.inr rfl

theorem c4_availability_fallback_witness :
    (strLower "sideways" ≠ "up" ∧ str_to_availability "sideways" = .Down)
      ∧ (strLower "sideways" ∉ errorTokens ∧ str_to_error "sideways" = .Unknown) :=
  ⟨⟨by decide, (c4_availability_fallback "sideways").2.1 (by decide)⟩,
   ⟨by decide, (c4_availability_fallback "sideways").2.2.2.1 (by decide)⟩⟩

/-- C5: Numeric optional fields.  `parse::<u32>().ok()` yields `some v`
exactly when the token is an optional `+` followed by digits denoting
`v < 2 ^ 32` (`U32Denotes`), and `parse::<f64>().ok()` yields `some v`
exactly when the token is a signed decimal number or special value denoting
`v` (`F64Denotes`); the placeholders `N/A`, `*` and `-` all parse to
`none`; and a line of matching arity always contributes its record, whose
numeric fields are exactly the optional parse results of the positional
tokens — field parsing never errors and never discards the record. -/
theorem c5_numeric_optional_fields :
    (∀ t v, parseU32 t = some v ↔ U32Denotes t v)
    ∧ (∀ t v, parseF64 t = some v ↔ F64Denotes t v)
    ∧ parseU32 "N/A" = none ∧ parseU32 "*" = none ∧ parseU32 "-" = none
    ∧ parseF64 "N/A" = none ∧ parseF64 "*" = none ∧ parseF64 "-" = none
    ∧ (∀ s line, line ∈ rustLines s → (splitWhitespace line).length = 10 →
        pnFromItems (splitWhitespace line) ∈ get_pn_info_util s
        ∧ (pnFromItems (splitWhitespace line)).cpu_load
            = parseF64 ((splitWhitespace line).getD 5 "")
        ∧ (pnFromItems (splitWhitespace line)).node_sockets
            = parseU32 ((splitWhitespace line).getD 7 "")
        ∧ (pnFromItems (splitWhitespace line)).node_cores
            = parseU32 ((splitWhitespace line).getD 8 "")
        ∧ (pnFromItems (splitWhitespace line)).node_threads
            = parseU32 ((splitWhitespace line).getD 9 ""))
    ∧ (∀ s line, line ∈ rustLines s → (splitWhitespace line).length = 19 →
        jobFromItems (splitWhitespace line) ∈ get_job_info_util s
        ∧ (jobFromItems (splitWhitespace line)).minimum_cpu
            = parseU32 ((splitWhitespace line).getD 1 "")
        ∧ (jobFromItems (splitWhitespace line)).num_cpu
            = parseU32 ((splitWhitespace line).getD 2 "")
        ∧ (jobFromItems (splitWhitespace line)).num_nodes
            = parseU32 ((splitWhitespace line).getD 3 "")
        ∧ (jobFromItems (splitWhitespace line)).job_array_id
            = parseU32 ((splitWhitespace line).getD 4 "")
        ∧ (jobFromItems (splitWhitespace line)).num_sockets
            = parseU32 ((splitWhitespace line).getD 5 "")
        ∧ (jobFromItems (splitWhitespace line)).job_id
            = parseU32 ((splitWhitespace line).getD 6 "")
        ∧ (jobFromItems (splitWhitespace line)).num_cores
            = parseU32 ((splitWhitespace line).getD 7 "")
        ∧ (jobFromItems (splitWhitespace line)).num_threads
            = parseU32 ((splitWhitespace line).getD 9 "")
        ∧ (jobFromItems (splitWhitespace line)).job_array_index
            = parseU32 ((splitWhitespace line).getD 10 "")
        ∧ (jobFromItems (splitWhitespace line)).priority
            = parseF64 ((splitWhitespace line).getD 13 "")
        ∧ (jobFromItems (splitWhitespace line)).user_id
            = parseU32 ((splitWhitespace line).getD 18 "")) := by
  refine ⟨parseU32_eq_some_iff, parseF64_eq_some_iff,
    by decide, by decide, by decide, by decide, by decide, by decide, ?_, ?_⟩
  · intro s line hline harity
    refine ⟨?_, rfl, rfl, rfl, rfl⟩
    rw [get_pn_info_util_eq_filterMap s]
    exact List.mem_filterMap.2 ⟨line, hline, by rw [if_pos harity]⟩
  · intro s line hline harity
    refine ⟨?_, rfl, rfl, rfl, rfl, rfl, rfl, rfl, rfl, rfl, rfl, rfl⟩
    rw [get_job_info_util_eq_filterMap s]
    exact List.mem_filterMap.2 ⟨line, hline, by rw [if_pos harity]⟩

theorem c5_numeric_optional_fields_witness :
    U32Denotes "42" 42 ∧ F64Denotes "0.22" (F64.finite (mkRat 22 100)) ∧
      pnFromItems (splitWhitespace "longrun up node01.foo.bar node01 none 0.22 idle 2 2 2")
        ∈ get_pn_info_util "longrun up node01.foo.bar node01 none 0.22 idle 2 2 2" :=
  ⟨(c5_numeric_optional_fields.1 "42" 42).1 (by decide),
   (c5_numeric_optional_fields.2.1 "0.22" (F64.finite (mkRat 22 100))).1 (by decide),
   (c5_numeric_optional_fields.2.2.2.2.2.2.2.2.1
     "longrun up node01.foo.bar node01 none 0.22 idle 2 2 2"
     "longrun up node01.foo.bar node01 none 0.22 idle 2 2 2"
     (by decide) (by decide)).1⟩

/-- C6: List-of-nodes splitting.  `str_to_list_of_nodes` maps the empty
string to `[]`, a single name to a one-element list, and a comma-separated
string to the list of names in order. -/
theorem c6_list_of_nodes_splitting :
    str_to_list_of_nodes "" = [] ∧ str_to_list_of_nodes "a" = ["a"]
      ∧ str_to_list_of_nodes "a,b,c" = ["a", "b", "c"] := by
  decide

/-- C7: End-to-end example.  Parsing the single line
`"longrun up node01.foo.bar node01 none 0.22 idle 2 2 2"` yields exactly one
`PartitionNodeInfo` with the stated field values (this is the source's own
test `test_get_pn_info_util_01`). -/
theorem c7_end_to_end_example :
    get_pn_info_util "longrun up node01.foo.bar node01 none 0.22 idle 2 2 2" =
      [{ partition := "longrun", availability := .Up, hostname := "node01.foo.bar",
         node := "node01", error := .None, cpu_load := some (.finite (0.22 : ℚ)),
         node_state := .Idle, node_sockets := some 2, node_cores := some 2,
         node_threads := some 2 }] := by
  have h022 : (0.22 : ℚ) = mkRat 22 100 := by
    rw [Rat.mkRat_eq_div]
    norm_num
  rw [h022]
  decide

/-- C8: Renderer contract.  `status_to_html` is a pure total function (it is
a plain Lean function of the snapshot — no parsing, no I/O, no failure
mode); for every snapshot, including the empty initial one, the document is
a fixed header containing `last_update`, exactly one table row per
`PartitionNodeInfo`, the fixed job-table header, exactly one row per
`JobInfo`, and the fixed tail; each row carries the availability cell, which
is the `partition_down`-marked cell exactly when availability is not `Up`;
every absent optional field renders as the fixed placeholder cell
`<td>-</td>`. -/
theorem c8_renderer_contract :
    ∀ st : SlurmStatus,
      status_to_html st =
        htmlDocHead ++ st.last_update ++ htmlAfterUpdate
          ++ String.join (st.node_info.map nodeRowHtml) ++ htmlBetweenTables
          ++ String.join (st.job_info.map jobRowHtml) ++ htmlDocTail
      ∧ (st.node_info.map nodeRowHtml).length = st.node_info.length
      ∧ (st.job_info.map jobRowHtml).length = st.job_info.length
      ∧ (∀ n : PartitionNodeInfo, n.availability ≠ .Up →
          availabilityCell n.availability = "<td id=\"partition_down\">Down</td>")
      ∧ (∀ n : PartitionNodeInfo, n.availability = .Up →
          availabilityCell n.availability = "<td>Up</td>")
      ∧ (∀ n : PartitionNodeInfo, ∃ a b : String,
          nodeRowHtml n = a ++ availabilityCell n.availability ++ b)
      ∧ optNatCell none = "<td>-</td>" ∧ optF64Cell none = "<td>-</td>" := by
  intro st
  refine ⟨?_, List.length_map _ _, List.length_map _ _, ?_, ?_, ?_, rfl, rfl⟩
  · unfold status_to_html
    rw [foldl_append_eq_join nodeRowHtml st.node_info "",
      foldl_append_eq_join jobRowHtml st.job_info "",
      String.empty_append, String.empty_append]
  · intro n h
    cases hn : n.availability with
    | Up => exact absurd hn h
    | Down => rfl
  · intro n h
    rw [h]
    rfl
  · intro n
    refine ⟨"<tr>\n" ++ ("<td>" ++ n.partition ++ "</td>"),
      ("<td>" ++ n.hostname ++ "</td>") ++ ("<td>" ++ n.node ++ "</td>")
        ++ ("<td>" ++ n.error.debugStr ++ "</td>") ++ optF64Cell n.cpu_load
        ++ ("<td>" ++ n.node_state.debugStr ++ "</td>") ++ optNatCell n.node_sockets
        ++ optNatCell n.node_cores ++ optNatCell n.node_threads ++ "</tr>\n", ?_⟩
    unfold nodeRowHtml
    simp only [String.append_assoc]

theorem c8_renderer_contract_witness :
    status_to_html initialSlurmStatus =
      htmlDocHead ++ "" ++ htmlAfterUpdate ++ String.join [] ++ htmlBetweenTables
        ++ String.join [] ++ htmlDocTail
    ∧ availabilityCell PartitionAvailability.Down = "<td id=\"partition_down\">Down</td>" := by
  constructor
  · exact (c8_renderer_contract initialSlurmStatus).1
  · exact (c8_renderer_contract initialSlurmStatus).2.2.2.1
      { partition := "p", availability := .Down, hostname := "h", node := "n",
        error := .None, cpu_load := none, node_state := .Idle,
        node_sockets := none, node_cores := none, node_threads := none }
      (by decide)

/-- C9: Lock-failure degradation.  When the mutex cannot be acquired, a read
(`handle_request` on a poisoned lock) returns the fixed error document
instead of the rendered report, while the writer's cycle (`slurm_cycle` with
`lock_ok = false`) leaves the stored snapshot unchanged; and a failed cycle
does not terminate the poller loop — the loop continues through the rest of
its schedule exactly as if the failed cycle were skipped. -/
theorem c9_lock_failure_degradation :
    (∀ (config : Configuration) (si sq now : String) (st : SlurmStatus),
        slurm_cycle config si sq now false st = st)
    ∧ (∀ e : String, handle_request (Except.error e) = "<h1>Could not lock Mutex!</h1>")
    ∧ (∀ st : SlurmStatus, handle_request (Except.ok st) = status_to_html st)
    ∧ (∀ (config : Configuration) (pre post : List CycleInput)
        (si sq now : String) (st : SlurmStatus),
        runPoller config
            (pre ++ { sinfo_out := si, squeue_out := sq, now_str := now,
                      lock_ok := false } :: post) st
          = runPoller config post (runPoller config pre st)) := by
  refine ⟨fun config si sq now st => rfl, fun e => rfl, fun st => rfl, ?_⟩
  intro config pre post si sq now st
  unfold runPoller
  rw [List.foldl_append, List.foldl_cons]
  rfl

set_option maxHeartbeats 1000000 in
theorem str_to_job_state_eq_nodeFail_iff (s : String) :
    str_to_job_state s = .NodeFail ↔ strLower s = "node_fail" := by
  constructor
  · intro h
    unfold str_to_job_state at h
    repeat' split at h
    all_goals simp_all
  · intro h
    unfold str_to_job_state
    rw [h]
    decide

/-- C10: The job-state classifier maps exactly the token `node_fail`
(case-insensitively, underscore included) to `NodeFail`; the underscore-free
token `nodefail` — the one used in the built-in job test fixture — maps to
`Unknown`, so in test mode the seventh fixture job is recorded with
`job_state = Unknown`, not `NodeFail`. -/
theorem c10_nodefail_token :
    (∀ s : String, str_to_job_state s = .NodeFail ↔ strLower s = "node_fail")
    ∧ str_to_job_state "node_fail" = .NodeFail
    ∧ str_to_job_state "NODE_FAIL" = .NodeFail
    ∧ str_to_job_state "nodefail" = .Unknown
    ∧ get_job_info_test.length = 12
    ∧ (get_job_info_test.map JobInfo.job_state).getD 6 .NodeFail = .Unknown :=
  ⟨str_to_job_state_eq_nodeFail_iff, by decide, by decide, by decide, by decide,
    by decide⟩
